import Mathlib

/-!
Verification of the graph reasoning core of the scryer repository
(`crates/scryer-mcp/src/main.rs` with the data model of
`crates/scryer-core/src/lib.rs`): the subtree extractor (`get_node`), the
task engine (`get_task`) and the diff engine (`compute_diff`).

The Rust data structures are embedded as Lean structures, and the three
engines as executable Lean functions translated statement by statement
from the source.  Fields that no embedded algorithm reads (canvas
positions, node type tags, the `expanded` flag, attachments) are omitted.
Rust `while` loops that walk `parent` pointers are embedded with an
explicit fuel of `nodes.length` (or `nodes.length + 1` for the
fixed-point loop of `get_node`): a walk through distinct nodes can take
at most that many steps, and the Rust loops terminate only on such walks
(parent chains are acyclic by the documented graph invariant).
-/

namespace Scryer

/-- `C4Kind` from scryer-core (`Model` is the DataModel leaf kind). -/
inductive C4Kind where
  | person
  | system
  | container
  | component
  | operation
  | process
  | model
deriving DecidableEq, Repr

/-- `Status` from scryer-core. -/
inductive Status where
  | implemented
  | proposed
  | changed
  | deprecated
deriving DecidableEq, Repr

/-- `C4Shape` from scryer-core. -/
inductive C4Shape where
  | rectangle
  | person
  | cylinder
  | pipe
  | trapezoid
  | bucket
  | hexagon
deriving DecidableEq, Repr

/-- `Reference` from scryer-core: a source-file pattern plus comment. -/
structure Reference where
  pattern : String
  comment : String
deriving DecidableEq, Repr

/-- `Contract` from scryer-core: three string lists. -/
structure Contract where
  expect : List String := []
  ask : List String := []
  never : List String := []
deriving DecidableEq, Repr

/-- `ModelProperty` from scryer-core: label/description pair. -/
structure ModelProperty where
  label : String
  description : String
deriving DecidableEq, Repr

/-- `C4NodeData` from scryer-core (UI-only fields omitted). -/
structure C4NodeData where
  name : String
  description : String := ""
  kind : C4Kind
  technology : Option String := none
  external : Option Bool := none
  shape : Option C4Shape := none
  sources : List Reference := []
  status : Option Status := none
  contract : Contract := {}
  accepts : List String := []
  decisions : Option String := none
  properties : List ModelProperty := []
deriving DecidableEq, Repr

/-- `C4Node` from scryer-core (`node_type` and `position` are UI-only). -/
structure C4Node where
  id : String
  parentId : Option String := none
  data : C4NodeData
deriving DecidableEq, Repr

/-- `C4EdgeData` from scryer-core. -/
structure C4EdgeData where
  label : String
  method : Option String := none
deriving DecidableEq, Repr

/-- `C4Edge` from scryer-core. -/
structure C4Edge where
  id : String
  source : String
  target : String
  data : Option C4EdgeData := none
deriving DecidableEq, Repr

/-- `GroupKind` from scryer-core. -/
inductive GroupKind where
  | deployment
  | package
deriving DecidableEq, Repr

/-- `Group` from scryer-core. -/
structure Group where
  id : String
  kind : GroupKind
  name : String
  description : Option String := none
  memberIds : List String := []
deriving DecidableEq, Repr

/-- `SourceLocation` from scryer-core. -/
structure SourceLocation where
  file : String
  line : Option Nat := none
  endLine : Option Nat := none
deriving DecidableEq, Repr

/-- `FlowStep` from scryer-core (`position` is UI-only). -/
structure FlowStep where
  id : String
  label : Option String := none
  description : Option String := none
  processIds : List String := []
deriving DecidableEq, Repr

/-- `FlowTransition` from scryer-core. -/
structure FlowTransition where
  source : String
  target : String
  label : Option String := none
deriving DecidableEq, Repr

/-- `Flow` from scryer-core. -/
structure Flow where
  id : String
  name : String
  description : Option String := none
  steps : List FlowStep := []
  transitions : List FlowTransition := []
deriving DecidableEq, Repr

/-- `C4ModelData` from scryer-core; the source map is kept as an
association list (the Rust `HashMap` keyed by node id). -/
structure C4ModelData where
  nodes : List C4Node := []
  edges : List C4Edge := []
  sourceMap : List (String × List SourceLocation) := []
  groups : List Group := []
  contract : Contract := {}
  flows : List Flow := []
deriving DecidableEq, Repr

/-- `model.nodes.iter().find(|n| n.id == id)`: first node with the id. -/
def findNode (m : C4ModelData) (id : String) : Option C4Node :=
  m.nodes.find? (fun n => n.id == id)

/-! ## Task engine (`get_task`, main.rs lines 1277-1919)

The Rust function interleaves the scheduling decision with markdown
rendering.  The embedding keeps the scheduling faithful and records the
outcome as structured data (`TaskOutcome`): which of the four results is
produced, and exactly which nodes each carries. -/

/-- Helper `has_status_children` (main.rs 1365-1375). -/
def hasStatusChildren (m : C4ModelData) (node : C4Node) : Bool :=
  m.nodes.any fun n =>
    n.parentId == some node.id && n.data.status.isSome &&
      (match node.data.kind with
       | C4Kind.container => n.data.kind == C4Kind.component
       | C4Kind.system => n.data.kind == C4Kind.container
       | _ => false)

/-- Helper `children_all_implemented` (main.rs 1378-1391). -/
def childrenAllImplemented (m : C4ModelData) (node : C4Node) : Bool :=
  match node.data.kind with
  | C4Kind.container => childrenAllImplementedOf m node C4Kind.component
  | C4Kind.system => childrenAllImplementedOf m node C4Kind.container
  | _ => true
where
  childrenAllImplementedOf (m : C4ModelData) (node : C4Node) (childKind : C4Kind) : Bool :=
    (m.nodes.filter fun n =>
        n.parentId == some node.id && n.data.kind == childKind && n.data.status.isSome).all
      fun n => n.data.status == some Status.implemented

/-- Helper `is_satisfied` (main.rs 1396-1404). -/
def isSatisfied (m : C4ModelData) (node : C4Node) : Bool :=
  if node.data.external == some true then true
  else if hasStatusChildren m node then childrenAllImplemented m node
  else node.data.status == some Status.implemented || node.data.status == none

/-- One step of the `is_descendant_of` parent walk (main.rs 1294-1308):
look up the current node (first match) and take its parent id. -/
def parentIdOf (m : C4ModelData) (id : String) : Option String :=
  (findNode m id).bind (fun n => n.parentId)

/-- The `is_descendant_of` loop with explicit fuel; the Rust loop
terminates exactly on acyclic parent chains, which pass through at most
`m.nodes.length` distinct nodes. -/
def isDescendantOfFuel (m : C4ModelData) : Nat → String → String → Bool
  | 0, _, _ => false
  | fuel + 1, nodeId, ancestorId =>
    match parentIdOf m nodeId with
    | some pid => if pid == ancestorId then true else isDescendantOfFuel m fuel pid ancestorId
    | none => false

/-- Helper `is_descendant_of` (main.rs 1294-1308). -/
def isDescendantOf (m : C4ModelData) (nodeId ancestorId : String) : Bool :=
  isDescendantOfFuel m m.nodes.length nodeId ancestorId

/-- The filter of `task_nodes` (main.rs 1408-1438): Container/Component
kind, status present and not Deprecated, not parented under an external
system, Containers not superseded by status-bearing components, and
inside the scope subtree when a scope is given. -/
def taskEligible (m : C4ModelData) (scope : Option String) (n : C4Node) : Bool :=
  (n.data.kind == C4Kind.container || n.data.kind == C4Kind.component) &&
  !(n.data.status == some Status.deprecated || n.data.status == none) &&
  !(match n.parentId with
    | some pid =>
      match findNode m pid with
      | some parent => parent.data.external == some true
      | none => false
    | none => false) &&
  !(n.data.kind == C4Kind.container && hasStatusChildren m n) &&
  (match scope with
   | some s => n.id == s || isDescendantOf m n.id s
   | none => true)

/-- `task_nodes` (main.rs 1408-1438). -/
def taskNodes (m : C4ModelData) (scope : Option String) : List C4Node :=
  m.nodes.filter (taskEligible m scope)

/-- `work_nodes` (main.rs 1447-1451): task-eligible and not satisfied. -/
def workNodes (m : C4ModelData) (scope : Option String) : List C4Node :=
  (taskNodes m scope).filter fun n => !isSatisfied m n

/-- One iteration of the `deps_satisfied` edge loop (main.rs 1504-1516):
the edge blocks only when its source is the node, its target resolves to
a node of Container or Component kind, and that target is unsatisfied. -/
def depEdgeOk (m : C4ModelData) (node : C4Node) (e : C4Edge) : Bool :=
  if e.source == node.id then
    match findNode m e.target with
    | some target =>
      if target.data.kind == C4Kind.container || target.data.kind == C4Kind.component then
        isSatisfied m target
      else true
    | none => true
  else true

/-- `deps_satisfied` (main.rs 1503-1518): every edge out of the node
whose target resolves to a Container or Component node must have a
satisfied target; unresolved targets and other kinds are skipped. -/
def depsSatisfied (m : C4ModelData) (node : C4Node) : Bool :=
  m.edges.all (depEdgeOk m node)

/-- `ready_nodes` (main.rs 1520-1530). -/
def readyNodes (m : C4ModelData) (scope : Option String) : List C4Node :=
  (workNodes m scope).filter fun n => depsSatisfied m n

/-- `blocked_nodes` (main.rs 1520-1530). -/
def blockedNodes (m : C4ModelData) (scope : Option String) : List C4Node :=
  (workNodes m scope).filter fun n => !depsSatisfied m n

/-- `get_ancestor_chain` helper loop (main.rs 1311-1334), with fuel for
the parent walk; ancestors are pushed child-to-root. -/
def getAncestorChainFuel (m : C4ModelData) : Nat → String → List C4Node → List C4Node
  | 0, _, chain => chain
  | fuel + 1, cur, chain =>
    match parentIdOf m cur with
    | some pid =>
      match findNode m pid with
      | some pnode => getAncestorChainFuel m fuel pid (chain ++ [pnode])
      | none => chain
    | none => chain

/-- `get_ancestor_chain` (main.rs 1311-1334): ancestor nodes of the
given node, reversed into root-to-node order. -/
def getAncestorChain (m : C4ModelData) (nodeId : String) : List C4Node :=
  (getAncestorChainFuel m m.nodes.length nodeId []).reverse

/-- `merge_contract` (main.rs 1337-1348): start from the model-level
contract, extend with each ancestor's lists in chain order, then with
the node's own lists. -/
def mergeContract (m : C4ModelData) (chain : List C4Node) (node : C4Node) : Contract :=
  let merged := chain.foldl
    (fun acc a =>
      { expect := acc.expect ++ a.data.contract.expect
        ask := acc.ask ++ a.data.contract.ask
        never := acc.never ++ a.data.contract.never })
    m.contract
  { expect := merged.expect ++ node.data.contract.expect
    ask := merged.ask ++ node.data.contract.ask
    never := merged.never ++ node.data.contract.never }

/-- `collect_decisions` (main.rs 1351-1362). -/
def collectDecisions (chain : List C4Node) (node : C4Node) : List String :=
  (chain.flatMap fun a =>
    match a.data.decisions with
    | some d => [a.data.name ++ ": " ++ d]
    | none => []) ++
  (match node.data.decisions with
   | some d => [d]
   | none => [])

/-- `propagate_nodes` (main.rs 1457-1471): Container/System nodes not
yet Implemented whose status-bearing children are all Implemented. -/
def propagateNodes (m : C4ModelData) : List C4Node :=
  m.nodes.filter fun n =>
    (n.data.kind == C4Kind.container || n.data.kind == C4Kind.system) &&
    !(n.data.status == some Status.implemented) &&
    hasStatusChildren m n &&
    childrenAllImplemented m n

/-- The per-group scaffold test of the loop at main.rs 1550-1621: a
Deployment group whose ready member containers are non-empty and whose
members all have status Proposed yields those ready member containers. -/
def scaffoldCandidate (m : C4ModelData) (ready : List C4Node) (g : Group) :
    Option (Group × List C4Node) :=
  if g.kind == GroupKind.deployment then
    let memberContainers := ready.filter fun n =>
      n.data.kind == C4Kind.container && g.memberIds.contains n.id
    let allMembersProposed := g.memberIds.all fun mid =>
      match findNode m mid with
      | some n => n.data.status == some Status.proposed
      | none => false
    if !memberContainers.isEmpty && allMembersProposed then
      some (g, memberContainers)
    else none
  else none

/-- The scaffold loop (main.rs 1550-1621): the first group that passes
the scaffold test, with its ready member containers. -/
def scaffoldGroup (m : C4ModelData) (ready : List C4Node) : Option (Group × List C4Node) :=
  m.groups.findSome? (scaffoldCandidate m ready)

/-- Outcome of one `get_task` call: the four contractually possible
results (`done` covers both the completion message and the flow report,
which differ only in rendering), plus the defensive `fallbackDone` of
main.rs 1682-1687. -/
inductive TaskOutcome where
  | done
  | propagate (nodes : List (String × String))
  | cycle (blocked : List (String × String))
  | scaffold (groupName : String) (members : List C4Node)
  | build (unit : List C4Node)
  | fallbackDone
deriving DecidableEq, Repr

/-- Work-unit selection when no scaffold fires (main.rs 1623-1687):
ready containers sharing the first ready container's parent, else ready
component siblings of the first ready component (truncated to one
dependency-free sibling when the siblings are interconnected). -/
def buildUnitOutcome (m : C4ModelData) (ready : List C4Node) : TaskOutcome :=
  let readyContainers := ready.filter fun n => n.data.kind == C4Kind.container
  let readyComponents := ready.filter fun n => n.data.kind == C4Kind.component
  let workUnit :=
    match readyContainers with
    | c :: _ => readyContainers.filter fun n => n.parentId == c.parentId
    | [] =>
      -- the Rust code indexes `ready_components[0]` here; ready nodes are
      -- all of Container or Component kind, so this branch has a head
      match readyComponents with
      | [] => []
      | c :: _ =>
        let siblings := readyComponents.filter fun n => n.parentId == c.parentId
        let siblingIds := siblings.map fun n => n.id
        let hasInterDeps := m.edges.any fun e =>
          siblingIds.contains e.source && siblingIds.contains e.target
        if hasInterDeps then
          (siblings.filter fun n =>
            !(m.edges.any fun e => e.source == n.id && siblingIds.contains e.target)).take 1
        else siblings
  if workUnit.isEmpty then TaskOutcome.fallbackDone else TaskOutcome.build workUnit

/-- The decision sequence of `get_task` (main.rs 1277-1919): completion
when no task-eligible nodes; propagation suggestion (or completion) when
all are satisfied; cycle report when nothing is ready; otherwise a
scaffold unit for the first qualifying deployment group, else a build
unit. -/
def getTask (m : C4ModelData) (scope : Option String) : TaskOutcome :=
  if (taskNodes m scope).isEmpty then TaskOutcome.done
  else if (workNodes m scope).isEmpty then
    if (propagateNodes m).isEmpty then TaskOutcome.done
    else TaskOutcome.propagate ((propagateNodes m).map fun n => (n.id, n.data.name))
  else if (readyNodes m scope).isEmpty && !(blockedNodes m scope).isEmpty then
    TaskOutcome.cycle ((blockedNodes m scope).map fun n => (n.data.name, n.id))
  else
    match scaffoldGroup m (readyNodes m scope) with
    | some (g, members) => TaskOutcome.scaffold g.name members
    | none => buildUnitOutcome m (readyNodes m scope)

/-- Marking every node of a given id list as Implemented and changing
nothing else (the `update_nodes` step the task output instructs). -/
def setImplemented (m : C4ModelData) (ids : List String) : C4ModelData :=
  { m with
    nodes := m.nodes.map fun n =>
      if ids.contains n.id then
        { n with data := { n.data with status := some Status.implemented } }
      else n }

/-- Adding one edge to a model (used to state dangling-edge claims). -/
def consEdge (m : C4ModelData) (e : C4Edge) : C4ModelData :=
  { m with edges := e :: m.edges }

/-! ## Subtree extractor (`get_node`, main.rs 357-450)

The descendant set is computed by the fixed-point loop of main.rs
381-395: starting from the target id, repeatedly sweep the node list and
add every node whose parent id is already in the set, until a sweep adds
nothing.  One sweep is `subtreeStep`; the `while changed` loop is
`subtreeIterate`, which stops at the first unproductive sweep.  Every
sweep inserts ids of distinct nodes, so at most `nodes.length`
productive sweeps can happen and fuel `nodes.length + 1` always reaches
the fixed point (proved below as `subtreeIdsList_fixpoint`). -/

/-- One node visit of the closure sweep (main.rs 387-393): insert the
node when its parent id is already collected and it is not. -/
def subtreeInsert (acc : List String) (n : C4Node) : List String :=
  match n.parentId with
  | some pid => if pid ∈ acc ∧ n.id ∉ acc then n.id :: acc else acc
  | none => acc

/-- One sweep of the closure loop (main.rs 386-394): scan the nodes in
storage order and insert each node whose parent is already collected. -/
def subtreeStep (nodes : List C4Node) (s : List String) : List String :=
  nodes.foldl subtreeInsert s

/-- The `while changed` loop (main.rs 384-395): iterate `subtreeStep`
until a sweep changes nothing, with explicit fuel. -/
def subtreeIterate (nodes : List C4Node) : Nat → List String → List String
  | 0, s => s
  | fuel + 1, s =>
    let s' := subtreeStep nodes s
    if s' = s then s else subtreeIterate nodes fuel s'

/-- The collected subtree id set of `get_node` (main.rs 381-395). -/
def subtreeIdsList (nodes : List C4Node) (rootId : String) : List String :=
  subtreeIterate nodes (nodes.length + 1) [rootId]

/-- The subtree id set for a model. -/
def subtreeIds (m : C4ModelData) (rootId : String) : List String :=
  subtreeIdsList m.nodes rootId

/-- Edges with both endpoints inside the subtree (main.rs 404-427). -/
def internalEdges (m : C4ModelData) (rootId : String) : List C4Edge :=
  m.edges.filter fun e =>
    (subtreeIds m rootId).contains e.source && (subtreeIds m rootId).contains e.target

/-- Edges with exactly one endpoint inside the subtree (main.rs
404-427); the annotation with the outside endpoint's name and kind is
rendering only and not part of the edge set. -/
def externalEdges (m : C4ModelData) (rootId : String) : List C4Edge :=
  m.edges.filter fun e =>
    !((subtreeIds m rootId).contains e.source && (subtreeIds m rootId).contains e.target) &&
    ((subtreeIds m rootId).contains e.source || (subtreeIds m rootId).contains e.target)

/-- Specification-side closure: the target itself, plus every node whose
parent chain (through nodes present in the graph) reaches the target.
This is the transitive closure of the `parent` relation rooted at the
target. -/
inductive InSubtree (nodes : List C4Node) (rootId : String) : String → Prop where
  | root : InSubtree nodes rootId rootId
  | step (n : C4Node) (pid : String) :
      n ∈ nodes → n.parentId = some pid → InSubtree nodes rootId pid →
      InSubtree nodes rootId n.id

/-! ## Diff engine (`compute_diff`, main.rs 2604-2954)

The Rust function collects nodes, edges and flows of each snapshot into
`std::collections::HashMap`s keyed by id, and the three "modified"
sections iterate those maps.  A `HashMap` keeps the **last** insertion
for a repeated key, answers `contains_key` for exactly the inserted
keys, and iterates its entries in an order that depends on the per-map
random hash state — it is not a function of the snapshots.  The
embedding therefore takes the iteration order of the current-side node,
edge and flow maps as explicit parameters (`nodeOrder`, `edgeOrder`,
`flowOrder`); a faithful order is some permutation of the map's keys,
and ids outside the map are simply not looked up.  Everything else in
`compute_diff` is order-independent and embedded directly.  One
divergence: Rust truncates long descriptions at 80 *bytes*, the
embedding at 80 characters; no claim depends on the truncation. -/

/-- `kind_str` (main.rs 2565-2575). -/
def kindStr : C4Kind → String
  | C4Kind.person => "person"
  | C4Kind.system => "system"
  | C4Kind.container => "container"
  | C4Kind.component => "component"
  | C4Kind.operation => "operation"
  | C4Kind.process => "process"
  | C4Kind.model => "model"

/-- `status_str` (main.rs 2577-2585). -/
def statusStr : Option Status → String
  | some Status.implemented => "implemented"
  | some Status.proposed => "proposed"
  | some Status.changed => "changed"
  | some Status.deprecated => "deprecated"
  | none => "none"

/-- `shape_str` (main.rs 2587-2598). -/
def shapeStr : Option C4Shape → String
  | some C4Shape.rectangle => "rectangle"
  | some C4Shape.person => "person"
  | some C4Shape.cylinder => "cylinder"
  | some C4Shape.pipe => "pipe"
  | some C4Shape.trapezoid => "trapezoid"
  | some C4Shape.bucket => "bucket"
  | some C4Shape.hexagon => "hexagon"
  | none => "default"

/-- `opt_str` (main.rs 2600-2602). -/
def optStr : Option String → String
  | some s => s
  | none => "none"

/-- Rust `format` of an `Option<bool>` with the Debug formatter, used
for the `external` flag (main.rs 2703-2707). -/
def debugOptBool : Option Bool → String
  | some true => "Some(true)"
  | some false => "Some(false)"
  | none => "None"

/-- `contains_key` of the id-keyed node map. -/
def containsNodeId (ns : List C4Node) (id : String) : Bool :=
  ns.any fun n => n.id == id

/-- Lookup in the id-keyed node map: the last insertion wins. -/
def lookupNodeLast (ns : List C4Node) (id : String) : Option C4Node :=
  ns.reverse.find? fun n => n.id == id

/-- `contains_key` of the id-keyed edge map. -/
def containsEdgeId (es : List C4Edge) (id : String) : Bool :=
  es.any fun e => e.id == id

/-- Lookup in the id-keyed edge map: the last insertion wins. -/
def lookupEdgeLast (es : List C4Edge) (id : String) : Option C4Edge :=
  es.reverse.find? fun e => e.id == id

/-- `contains_key` of the id-keyed flow map. -/
def containsFlowId (fs : List Flow) (id : String) : Bool :=
  fs.any fun f => f.id == id

/-- Lookup in the id-keyed flow map: the last insertion wins. -/
def lookupFlowLast (fs : List Flow) (id : String) : Option Flow :=
  fs.reverse.find? fun f => f.id == id

/-- Edge label with the Rust `unwrap_or("")` default. -/
def edgeLabel (e : C4Edge) : String :=
  match e.data with
  | some d => d.label
  | none => ""

/-- Edge method (`data.and_then(|d| d.method)`). -/
def edgeMethod (e : C4Edge) : Option String :=
  e.data.bind fun d => d.method

/-- Description truncation of the nodes-added detail (main.rs
2643-2650); character-based where Rust slices bytes. -/
def truncateDescription (d : String) : String :=
  if d.length > 80 then (d.take 77).push '.' |>.push '.' |>.push '.' else d

/-- One detail line of the "Nodes added" section (main.rs 2624-2651). -/
def nodeAddedLine (n : C4Node) : String :=
  "  - " ++ n.id ++ " \"" ++ n.data.name ++ "\" (" ++ kindStr n.data.kind ++ ")" ++
  (match n.parentId with
   | some pid => ", parent=" ++ pid
   | none => "") ++
  (match n.data.technology with
   | some tech => ", technology=" ++ tech
   | none => "") ++
  (if n.data.shape.isSome then ", shape=" ++ shapeStr n.data.shape else "") ++
  (if n.data.status.isSome then ", status=" ++ statusStr n.data.status else "") ++
  (if n.data.description ≠ "" then
    ", description=\"" ++ truncateDescription n.data.description ++ "\""
   else "")

/-- The "Nodes added" section (main.rs 2616-2654). -/
def nodesAddedSection (baseline current : C4ModelData) : Option String :=
  let added := current.nodes.filter fun n => !containsNodeId baseline.nodes n.id
  if added.isEmpty then none
  else some (String.intercalate "\n"
    (("Nodes added (" ++ toString added.length ++ "):") :: added.map nodeAddedLine))

/-- The "Nodes removed" section (main.rs 2656-2673). -/
def nodesRemovedSection (baseline current : C4ModelData) : Option String :=
  let removed := baseline.nodes.filter fun n => !containsNodeId current.nodes n.id
  if removed.isEmpty then none
  else some (String.intercalate "\n"
    (("Nodes removed (" ++ toString removed.length ++ "):") ::
      removed.map fun n =>
        "  - " ++ n.id ++ " \"" ++ n.data.name ++ "\" (" ++ kindStr n.data.kind ++ ")"))

/-- The per-node field comparisons of the "Nodes modified" section
(main.rs 2679-2760), in source order. -/
def nodeChanges (base curr : C4Node) : List String :=
  (if base.data.name ≠ curr.data.name then
    ["name \"" ++ base.data.name ++ "\" -> \"" ++ curr.data.name ++ "\""]
   else []) ++
  (if base.data.description ≠ curr.data.description then ["description changed"] else []) ++
  (if base.data.kind ≠ curr.data.kind then
    ["kind " ++ kindStr base.data.kind ++ " -> " ++ kindStr curr.data.kind]
   else []) ++
  (if base.data.technology ≠ curr.data.technology then
    ["technology " ++ optStr base.data.technology ++ " -> " ++ optStr curr.data.technology]
   else []) ++
  (if base.data.external ≠ curr.data.external then
    ["external " ++ debugOptBool base.data.external ++ " -> " ++ debugOptBool curr.data.external]
   else []) ++
  (if base.data.shape ≠ curr.data.shape then
    ["shape " ++ shapeStr base.data.shape ++ " -> " ++ shapeStr curr.data.shape]
   else []) ++
  (if base.data.status ≠ curr.data.status then
    ["status " ++ statusStr base.data.status ++ " -> " ++ statusStr curr.data.status]
   else []) ++
  (if base.parentId ≠ curr.parentId then
    ["parentId " ++ optStr base.parentId ++ " -> " ++ optStr curr.parentId]
   else []) ++
  (if base.data.sources.length ≠ curr.data.sources.length ∨
      (base.data.sources.zip curr.data.sources).any
        (fun ab => ab.1.pattern != ab.2.pattern || ab.1.comment != ab.2.comment) then
    ["sources changed (" ++ toString base.data.sources.length ++ " -> " ++
      toString curr.data.sources.length ++ " entries)"]
   else []) ++
  (if base.data.contract ≠ curr.data.contract then ["contract changed"] else []) ++
  (if base.data.accepts ≠ curr.data.accepts then ["accepts changed"] else []) ++
  (if base.data.decisions ≠ curr.data.decisions then ["decisions changed"] else []) ++
  (if base.data.properties ≠ curr.data.properties then
    ["properties changed (" ++ toString base.data.properties.length ++ " -> " ++
      toString curr.data.properties.length ++ " entries)"]
   else [])

/-- One iteration of the "Nodes modified" loop (main.rs 2677-2770): the
detail line for the id, when both maps hold it and fields differ. -/
def nodeModifiedEntry (baseline current : C4ModelData) (id : String) : List String :=
  match lookupNodeLast current.nodes id, lookupNodeLast baseline.nodes id with
  | some curr, some base =>
    let cs := nodeChanges base curr
    if cs.isEmpty then []
    else ["  - " ++ id ++ " (\"" ++ curr.data.name ++ "\"): " ++ String.intercalate ", " cs]
  | _, _ => []

/-- The "Nodes modified" section (main.rs 2675-2777), iterating the
current-side node map in the given key order. -/
def nodesModifiedSection (baseline current : C4ModelData) (nodeOrder : List String) :
    Option String :=
  let lines := nodeOrder.flatMap (nodeModifiedEntry baseline current)
  if lines.isEmpty then none
  else some ("Nodes modified (" ++ toString lines.length ++ "):\n" ++
    String.intercalate "\n" lines)

/-- The "Edges added" section (main.rs 2779-2795). -/
def edgesAddedSection (baseline current : C4ModelData) : Option String :=
  let added := current.edges.filter fun e => !containsEdgeId baseline.edges e.id
  if added.isEmpty then none
  else some (String.intercalate "\n"
    (("Edges added (" ++ toString added.length ++ "):") ::
      added.map fun e =>
        "  - " ++ e.id ++ ": " ++ e.source ++ " -> " ++ e.target ++ " \"" ++ edgeLabel e ++ "\""))

/-- The "Edges removed" section (main.rs 2797-2813). -/
def edgesRemovedSection (baseline current : C4ModelData) : Option String :=
  let removed := baseline.edges.filter fun e => !containsEdgeId current.edges e.id
  if removed.isEmpty then none
  else some (String.intercalate "\n"
    (("Edges removed (" ++ toString removed.length ++ "):") ::
      removed.map fun e =>
        "  - " ++ e.id ++ ": " ++ e.source ++ " -> " ++ e.target ++ " \"" ++ edgeLabel e ++ "\""))

/-- The per-edge label/method comparison (main.rs 2819-2838). -/
def edgeChanges (base curr : C4Edge) : List String :=
  (if edgeLabel base ≠ edgeLabel curr then
    ["label \"" ++ edgeLabel base ++ "\" -> \"" ++ edgeLabel curr ++ "\""]
   else []) ++
  (if edgeMethod base ≠ edgeMethod curr then
    ["method " ++ optStr (edgeMethod base) ++ " -> " ++ optStr (edgeMethod curr)]
   else [])

/-- One iteration of the "Edges modified" loop (main.rs 2817-2839). -/
def edgeModifiedEntry (baseline current : C4ModelData) (id : String) : List String :=
  match lookupEdgeLast current.edges id, lookupEdgeLast baseline.edges id with
  | some curr, some base =>
    let cs := edgeChanges base curr
    if cs.isEmpty then [] else ["  - " ++ id ++ ": " ++ String.intercalate ", " cs]
  | _, _ => []

/-- The "Edges modified" section (main.rs 2815-2847), iterating the
current-side edge map in the given key order. -/
def edgesModifiedSection (baseline current : C4ModelData) (edgeOrder : List String) :
    Option String :=
  let lines := edgeOrder.flatMap (edgeModifiedEntry baseline current)
  if lines.isEmpty then none
  else some ("Edges modified (" ++ toString lines.length ++ "):\n" ++
    String.intercalate "\n" lines)

/-- The model-level contract section (main.rs 2849-2865). -/
def contractSection (baseline current : C4ModelData) : Option String :=
  if baseline.contract ≠ current.contract then
    some ("Model contract changed: " ++ String.intercalate ", "
      ((if baseline.contract.expect ≠ current.contract.expect then ["expect updated"] else []) ++
       (if baseline.contract.ask ≠ current.contract.ask then ["ask updated"] else []) ++
       (if baseline.contract.never ≠ current.contract.never then ["never updated"] else [])))
  else none

/-- The "Flows added" section (main.rs 2873-2890). -/
def flowsAddedSection (baseline current : C4ModelData) : Option String :=
  let added := current.flows.filter fun f => !containsFlowId baseline.flows f.id
  if added.isEmpty then none
  else some (String.intercalate "\n"
    (("Flows added (" ++ toString added.length ++ "):") ::
      added.map fun f =>
        "  - " ++ f.id ++ " \"" ++ f.name ++ "\" (" ++ toString f.steps.length ++ " steps, " ++
          toString f.transitions.length ++ " transitions)"))

/-- The "Flows removed" section (main.rs 2892-2903). -/
def flowsRemovedSection (baseline current : C4ModelData) : Option String :=
  let removed := baseline.flows.filter fun f => !containsFlowId current.flows f.id
  if removed.isEmpty then none
  else some (String.intercalate "\n"
    (("Flows removed (" ++ toString removed.length ++ "):") ::
      removed.map fun f => "  - " ++ f.id ++ " \"" ++ f.name ++ "\""))

/-- The per-flow coarse comparison (main.rs 2908-2937). -/
def flowChanges (base curr : Flow) : List String :=
  (if base.name ≠ curr.name then
    ["name \"" ++ base.name ++ "\" -> \"" ++ curr.name ++ "\""]
   else []) ++
  (if base.steps.length ≠ curr.steps.length then
    ["steps " ++ toString base.steps.length ++ " -> " ++ toString curr.steps.length]
   else []) ++
  (if base.transitions.length ≠ curr.transitions.length then
    ["transitions " ++ toString base.transitions.length ++ " -> " ++
      toString curr.transitions.length]
   else []) ++
  (if base.description ≠ curr.description then ["description changed"] else [])

/-- One iteration of the "Flows modified" loop (main.rs 2906-2939); the
comparison only runs for flows that differ at all. -/
def flowModifiedEntry (baseline current : C4ModelData) (id : String) : List String :=
  match lookupFlowLast current.flows id, lookupFlowLast baseline.flows id with
  | some curr, some base =>
    if base ≠ curr then
      let cs := flowChanges base curr
      if cs.isEmpty then []
      else ["  - " ++ id ++ " (\"" ++ curr.name ++ "\"): " ++ String.intercalate ", " cs]
    else []
  | _, _ => []

/-- The "Flows modified" section (main.rs 2905-2947), iterating the
current-side flow map in the given key order. -/
def flowsModifiedSection (baseline current : C4ModelData) (flowOrder : List String) :
    Option String :=
  let lines := flowOrder.flatMap (flowModifiedEntry baseline current)
  if lines.isEmpty then none
  else some ("Flows modified (" ++ toString lines.length ++ "):\n" ++
    String.intercalate "\n" lines)

/-- `compute_diff` (main.rs 2604-2954): the non-empty sections in their
fixed order, joined by blank lines, or the "no changes" message.  The
three order parameters are the iteration orders of the current-side
node, edge and flow maps (see the section comment above). -/
def computeDiff (baseline current : C4ModelData)
    (nodeOrder edgeOrder flowOrder : List String) : String :=
  let sections :=
    (nodesAddedSection baseline current).toList ++
    (nodesRemovedSection baseline current).toList ++
    (nodesModifiedSection baseline current nodeOrder).toList ++
    (edgesAddedSection baseline current).toList ++
    (edgesRemovedSection baseline current).toList ++
    (edgesModifiedSection baseline current edgeOrder).toList ++
    (contractSection baseline current).toList ++
    (flowsAddedSection baseline current).toList ++
    (flowsRemovedSection baseline current).toList ++
    (flowsModifiedSection baseline current flowOrder).toList
  if sections.isEmpty then "No changes since last seen."
  else String.intercalate "\n\n" sections

/-! ## Specification-side predicates -/

/-- The dependency check as the specification words it: every edge out
of the node whose target resolves to a **task-eligible** node must have
a satisfied target (spec section 4.2, *Dependencies satisfied*). -/
def DepsSatisfiedClaim (m : C4ModelData) (n : C4Node) : Prop :=
  ∀ e ∈ m.edges, e.source = n.id →
    ∀ t, findNode m e.target = some t → taskEligible m none t = true →
      isSatisfied m t = true

/-- The dependency check as the code implements it: every edge out of
the node whose target resolves to a node of Container or Component
**kind** must have a satisfied target; missing targets and other kinds
are skipped. -/
def DepsSatisfiedByKind (m : C4ModelData) (n : C4Node) : Prop :=
  ∀ e ∈ m.edges, e.source = n.id →
    ∀ t, findNode m e.target = some t →
      (t.data.kind = C4Kind.container ∨ t.data.kind = C4Kind.component) →
      isSatisfied m t = true

/-! ## Concrete example graphs -/

/-- Container A, status Proposed, with an edge to the deprecated B. -/
def depNodeA : C4Node :=
  { id := "node-a", data := { name := "A", kind := C4Kind.container, status := some Status.proposed } }

/-- Container B, status Deprecated: not task-eligible, not satisfied. -/
def depNodeB : C4Node :=
  { id := "node-b", data := { name := "B", kind := C4Kind.container, status := some Status.deprecated } }

/-- Graph with edge A → B where B is a deprecated container. -/
def depModel : C4ModelData :=
  { nodes := [depNodeA, depNodeB]
    edges := [{ id := "edge-node-a-node-b", source := "node-a", target := "node-b" }] }

/-- Container A of the two-node dependency cycle. -/
def cycNodeA : C4Node :=
  { id := "node-a", data := { name := "A", kind := C4Kind.container, status := some Status.proposed } }

/-- Container B of the two-node dependency cycle. -/
def cycNodeB : C4Node :=
  { id := "node-b", data := { name := "B", kind := C4Kind.container, status := some Status.proposed } }

/-- Two proposed containers with edges A → B and B → A. -/
def cycleModel : C4ModelData :=
  { nodes := [cycNodeA, cycNodeB]
    edges := [{ id := "edge-node-a-node-b", source := "node-a", target := "node-b" },
              { id := "edge-node-b-node-a", source := "node-b", target := "node-a" }] }

/-- Proposed container C1, a ready member of the deployment group. -/
def scafNodeC1 : C4Node :=
  { id := "node-c1", data := { name := "C1", kind := C4Kind.container, status := some Status.proposed } }

/-- Proposed container C2, a member of the deployment group that is
blocked by its dependency on D. -/
def scafNodeC2 : C4Node :=
  { id := "node-c2", data := { name := "C2", kind := C4Kind.container, status := some Status.proposed } }

/-- Proposed container D outside the group; C2 depends on it. -/
def scafNodeD : C4Node :=
  { id := "node-d", data := { name := "D", kind := C4Kind.container, status := some Status.proposed } }

/-- Deployment group with members C1 and C2. -/
def scafGroup : Group :=
  { id := "group-1", kind := GroupKind.deployment, name := "grp", memberIds := ["node-c1", "node-c2"] }

/-- Graph whose deployment group members are all Proposed, with C1 ready
and C2 blocked by the edge C2 → D. -/
def scafModel : C4ModelData :=
  { nodes := [scafNodeC1, scafNodeC2, scafNodeD]
    edges := [{ id := "edge-node-c2-node-d", source := "node-c2", target := "node-d" }]
    groups := [scafGroup] }

/-- System root of the three-level subtree example. -/
def subNodeS : C4Node :=
  { id := "s", data := { name := "S", kind := C4Kind.system } }

/-- Container child of the subtree example. -/
def subNodeC : C4Node :=
  { id := "c", parentId := some "s", data := { name := "C", kind := C4Kind.container } }

/-- Component grandchild of the subtree example. -/
def subNodeP : C4Node :=
  { id := "p", parentId := some "c", data := { name := "P", kind := C4Kind.component } }

/-- Three-level chain stored child-first, so a single sweep in storage
order cannot collect it: the fixed point is required. -/
def subModel : C4ModelData :=
  { nodes := [subNodeP, subNodeC, subNodeS]
    edges := [{ id := "edge-p-x", source := "p", target := "x" },
              { id := "edge-s-c", source := "s", target := "c" }] }

/-- The same graph with the node storage order permuted. -/
def subModelPerm : C4ModelData :=
  { nodes := [subNodeS, subNodeP, subNodeC]
    edges := subModel.edges }

/-- System ancestor contributing the root-ancestor contract entry. -/
def mergeSys : C4Node :=
  { id := "sys"
    data := { name := "Sys", kind := C4Kind.system, contract := { expect := ["root-ancestor"] } } }

/-- Container ancestor contributing the mid-ancestor contract entry. -/
def mergeCont : C4Node :=
  { id := "cont", parentId := some "sys"
    data := { name := "Cont", kind := C4Kind.container, contract := { expect := ["mid-ancestor"] } } }

/-- Component contributing its own contract entry. -/
def mergeComp : C4Node :=
  { id := "comp", parentId := some "cont"
    data := { name := "Comp", kind := C4Kind.component, contract := { expect := ["node"] } } }

/-- Three-level ancestor chain with a model-level contract entry. -/
def mergeModel : C4ModelData :=
  { nodes := [mergeSys, mergeCont, mergeComp], contract := { expect := ["model-level"] } }

/-- Baseline node `node-1` of the diff example. -/
def diffNode1 : C4Node :=
  { id := "node-1", data := { name := "Auth", kind := C4Kind.container } }

/-- Baseline node `node-2` of the diff example. -/
def diffNode2 : C4Node :=
  { id := "node-2", data := { name := "Pay", kind := C4Kind.container } }

/-- Renamed `node-1` of the diff example. -/
def diffNode1R : C4Node :=
  { id := "node-1", data := { name := "Authentication", kind := C4Kind.container } }

/-- Renamed `node-2` of the diff example. -/
def diffNode2R : C4Node :=
  { id := "node-2", data := { name := "Payments", kind := C4Kind.container } }

/-- Diff baseline snapshot with two nodes. -/
def diffBaseModel : C4ModelData := { nodes := [diffNode1, diffNode2] }

/-- Diff current snapshot: both nodes renamed, nothing else changed. -/
def diffCurrModel : C4ModelData := { nodes := [diffNode1R, diffNode2R] }

/-- System parent of the first build-example container. -/
def buildSys1 : C4Node := { id := "sys-1", data := { name := "S1", kind := C4Kind.system } }

/-- System parent of the second build-example container. -/
def buildSys2 : C4Node := { id := "sys-2", data := { name := "S2", kind := C4Kind.system } }

/-- Proposed container under the first system. -/
def buildCont1 : C4Node :=
  { id := "node-w1", parentId := some "sys-1"
    data := { name := "W1", kind := C4Kind.container, status := some Status.proposed } }

/-- Proposed container under the second system. -/
def buildCont2 : C4Node :=
  { id := "node-w2", parentId := some "sys-2"
    data := { name := "W2", kind := C4Kind.container, status := some Status.proposed } }

/-- Two independent proposed containers under different systems: the
first `get_task` unit is the first container alone. -/
def buildModel : C4ModelData := { nodes := [buildSys1, buildCont1, buildSys2, buildCont2] }

/-- The single proposed container of the dangling-edge example. -/
def dangNode : C4Node :=
  { id := "node-a", data := { name := "A", kind := C4Kind.container, status := some Status.proposed } }

/-- Model holding only that container. -/
def dangModel : C4ModelData := { nodes := [dangNode] }

/-- An edge out of the container whose target id matches no node. -/
def dangEdge : C4Edge := { id := "edge-node-a-ghost", source := "node-a", target := "ghost" }

/-! ## Claim C4: contract merge is ordered concatenation -/

/-- The contract fold of `merge_contract` appends each chain member's
lists, in chain order, to the accumulator. -/
theorem contractFold_eq (chain : List C4Node) (c : Contract) :
    chain.foldl
      (fun acc a =>
        { expect := acc.expect ++ a.data.contract.expect
          ask := acc.ask ++ a.data.contract.ask
          never := acc.never ++ a.data.contract.never })
      c =
    { expect := c.expect ++ (chain.map fun a => a.data.contract.expect).flatten
      ask := c.ask ++ (chain.map fun a => a.data.contract.ask).flatten
      never := c.never ++ (chain.map fun a => a.data.contract.never).flatten } := by
  induction chain generalizing c with
  | nil => simp
  | cons a l ih => simp [List.foldl_cons, ih, List.append_assoc]

/-- Claim C4: for every graph, ancestor chain and node, the merged
contract is the model-level lists, then each chain member's own lists in
chain order, then the node's own lists — concatenation per list with no
override and no de-duplication; and in the concrete three-level example
the ancestor chain is in root-to-node order and the merged expect list
is exactly [model-level, root-ancestor, mid-ancestor, node]. -/
theorem contract_merge_concatenation :
    (∀ (m : C4ModelData) (chain : List C4Node) (node : C4Node),
      mergeContract m chain node =
        { expect := m.contract.expect ++
            (chain.map fun a => a.data.contract.expect).flatten ++ node.data.contract.expect
          ask := m.contract.ask ++
            (chain.map fun a => a.data.contract.ask).flatten ++ node.data.contract.ask
          never := m.contract.never ++
            (chain.map fun a => a.data.contract.never).flatten ++ node.data.contract.never }) ∧
    (getAncestorChain mergeModel "comp").map (fun a => a.id) = ["sys", "cont"] ∧
    (mergeContract mergeModel (getAncestorChain mergeModel "comp") mergeComp).expect =
      ["model-level", "root-ancestor", "mid-ancestor", "node"] := by
  refine ⟨fun m chain node => ?_, by decide, by decide⟩
  unfold mergeContract
  simp [contractFold_eq, List.append_assoc]

/-! ## Claim C6: edge partition of the subtree extraction -/

/-- Claim C6: for every graph and target, the internal and external edge
sets of the subtree extraction are disjoint, their union is exactly the
set of graph edges with at least one endpoint in the subtree closure,
and an edge with neither endpoint in the closure is in neither set. -/
theorem edge_partition (m : C4ModelData) (rootId : String) (e : C4Edge) :
    ¬(e ∈ internalEdges m rootId ∧ e ∈ externalEdges m rootId) ∧
    ((e ∈ internalEdges m rootId ∨ e ∈ externalEdges m rootId) ↔
      e ∈ m.edges ∧ (e.source ∈ subtreeIds m rootId ∨ e.target ∈ subtreeIds m rootId)) ∧
    (e.source ∉ subtreeIds m rootId → e.target ∉ subtreeIds m rootId →
      e ∉ internalEdges m rootId ∧ e ∉ externalEdges m rootId) := by
  by_cases hs : e.source ∈ subtreeIds m rootId <;>
    by_cases ht : e.target ∈ subtreeIds m rootId <;>
      simp [internalEdges, externalEdges, List.mem_filter, List.elem_iff, List.contains, hs, ht]

/-- Witness for claim C6 at a concrete graph: the edge s → c touches
neither node of the one-node subtree rooted at p, and lands in neither
edge set. -/
theorem edge_partition_witness :
    ("s" ∉ subtreeIds subModel "p") ∧ ("c" ∉ subtreeIds subModel "p") ∧
    ({ id := "edge-s-c", source := "s", target := "c" } ∉ internalEdges subModel "p" ∧
     { id := "edge-s-c", source := "s", target := "c" } ∉ externalEdges subModel "p") :=
  ⟨by decide, by decide,
    (edge_partition subModel "p" { id := "edge-s-c", source := "s", target := "c" }).2.2
      (by decide) (by decide)⟩

/-! ## Claim C9: diffing a snapshot against itself -/

/-- A member's id passes the `contains_key` test of its own node list. -/
theorem containsNodeId_of_mem {ns : List C4Node} {n : C4Node} (h : n ∈ ns) :
    containsNodeId ns n.id = true :=
  List.any_eq_true.mpr ⟨n, h, by simp⟩

/-- A member's id passes the `contains_key` test of its own edge list. -/
theorem containsEdgeId_of_mem {es : List C4Edge} {e : C4Edge} (h : e ∈ es) :
    containsEdgeId es e.id = true :=
  List.any_eq_true.mpr ⟨e, h, by simp⟩

/-- A member's id passes the `contains_key` test of its own flow list. -/
theorem containsFlowId_of_mem {fs : List Flow} {f : Flow} (h : f ∈ fs) :
    containsFlowId fs f.id = true :=
  List.any_eq_true.mpr ⟨f, h, by simp⟩

/-- Zipping a list with itself pairs each element with itself. -/
theorem zip_self_fst_eq_snd {α : Type} (l : List α) : ∀ p ∈ l.zip l, p.1 = p.2 := by
  induction l with
  | nil => simp
  | cons a t ih =>
    intro p hp
    rcases List.mem_cons.mp hp with h | h
    · rw [h]
    · exact ih p h

/-- Flat-mapping a function that is empty on every element gives the
empty list. -/
theorem flatMap_eq_nil_of {α β : Type} {l : List α} {f : α → List β}
    (h : ∀ a ∈ l, f a = []) : l.flatMap f = [] := by
  induction l with
  | nil => rfl
  | cons a t ih =>
    rw [List.flatMap_cons, h a (List.mem_cons_self a t), List.nil_append]
    exact ih fun x hx => h x (List.mem_cons_of_mem a hx)

/-- Comparing a node against itself yields no change entries. -/
theorem nodeChanges_self (c : C4Node) : nodeChanges c c = [] := by
  have ha : (c.data.sources.zip c.data.sources).any
      (fun ab => ab.1.pattern != ab.2.pattern || ab.1.comment != ab.2.comment) = false := by
    rw [List.any_eq_false]
    intro p hp
    rw [zip_self_fst_eq_snd _ p hp]
    simp
  simp [nodeChanges, ha]

/-- The nodes-added section of a self-diff is absent. -/
theorem nodesAddedSection_self (g : C4ModelData) : nodesAddedSection g g = none := by
  have h : (g.nodes.filter fun n => !containsNodeId g.nodes n.id) = [] :=
    List.filter_eq_nil_iff.mpr fun n hn => by simp [containsNodeId_of_mem hn]
  simp [nodesAddedSection, h]

/-- The nodes-removed section of a self-diff is absent. -/
theorem nodesRemovedSection_self (g : C4ModelData) : nodesRemovedSection g g = none := by
  have h : (g.nodes.filter fun n => !containsNodeId g.nodes n.id) = [] :=
    List.filter_eq_nil_iff.mpr fun n hn => by simp [containsNodeId_of_mem hn]
  simp [nodesRemovedSection, h]

/-- A self-diff produces no modified-node entry for any id. -/
theorem nodeModifiedEntry_self (g : C4ModelData) (id : String) :
    nodeModifiedEntry g g id = [] := by
  unfold nodeModifiedEntry
  cases hl : lookupNodeLast g.nodes id with
  | none => rfl
  | some c => simp [nodeChanges_self]

/-- The nodes-modified section of a self-diff is absent. -/
theorem nodesModifiedSection_self (g : C4ModelData) (ord : List String) :
    nodesModifiedSection g g ord = none := by
  have h : ord.flatMap (nodeModifiedEntry g g) = [] :=
    flatMap_eq_nil_of fun id _ => nodeModifiedEntry_self g id
  simp [nodesModifiedSection, h]

/-- The edges-added section of a self-diff is absent. -/
theorem edgesAddedSection_self (g : C4ModelData) : edgesAddedSection g g = none := by
  have h : (g.edges.filter fun e => !containsEdgeId g.edges e.id) = [] :=
    List.filter_eq_nil_iff.mpr fun e he => by simp [containsEdgeId_of_mem he]
  simp [edgesAddedSection, h]

/-- The edges-removed section of a self-diff is absent. -/
theorem edgesRemovedSection_self (g : C4ModelData) : edgesRemovedSection g g = none := by
  have h : (g.edges.filter fun e => !containsEdgeId g.edges e.id) = [] :=
    List.filter_eq_nil_iff.mpr fun e he => by simp [containsEdgeId_of_mem he]
  simp [edgesRemovedSection, h]

/-- A self-diff produces no modified-edge entry for any id. -/
theorem edgeModifiedEntry_self (g : C4ModelData) (id : String) :
    edgeModifiedEntry g g id = [] := by
  unfold edgeModifiedEntry
  cases hl : lookupEdgeLast g.edges id with
  | none => rfl
  | some e => simp [edgeChanges]

/-- The edges-modified section of a self-diff is absent. -/
theorem edgesModifiedSection_self (g : C4ModelData) (ord : List String) :
    edgesModifiedSection g g ord = none := by
  have h : ord.flatMap (edgeModifiedEntry g g) = [] :=
    flatMap_eq_nil_of fun id _ => edgeModifiedEntry_self g id
  simp [edgesModifiedSection, h]

/-- The model-contract section of a self-diff is absent. -/
theorem contractSection_self (g : C4ModelData) : contractSection g g = none := by
  simp [contractSection]

/-- The flows-added section of a self-diff is absent. -/
theorem flowsAddedSection_self (g : C4ModelData) : flowsAddedSection g g = none := by
  have h : (g.flows.filter fun f => !containsFlowId g.flows f.id) = [] :=
    List.filter_eq_nil_iff.mpr fun f hf => by simp [containsFlowId_of_mem hf]
  simp [flowsAddedSection, h]

/-- The flows-removed section of a self-diff is absent. -/
theorem flowsRemovedSection_self (g : C4ModelData) : flowsRemovedSection g g = none := by
  have h : (g.flows.filter fun f => !containsFlowId g.flows f.id) = [] :=
    List.filter_eq_nil_iff.mpr fun f hf => by simp [containsFlowId_of_mem hf]
  simp [flowsRemovedSection, h]

/-- A self-diff produces no modified-flow entry for any id. -/
theorem flowModifiedEntry_self (g : C4ModelData) (id : String) :
    flowModifiedEntry g g id = [] := by
  unfold flowModifiedEntry
  cases hl : lookupFlowLast g.flows id with
  | none => rfl
  | some f => simp

/-- The flows-modified section of a self-diff is absent. -/
theorem flowsModifiedSection_self (g : C4ModelData) (ord : List String) :
    flowsModifiedSection g g ord = none := by
  have h : ord.flatMap (flowModifiedEntry g g) = [] :=
    flatMap_eq_nil_of fun id _ => flowModifiedEntry_self g id
  simp [flowsModifiedSection, h]

/-- Claim C9: for every snapshot, diffing it against itself yields the
single "no changes" result, with no section of any kind, whatever
iteration orders the three id maps happen to take. -/
theorem diff_self_no_changes (g : C4ModelData) (nodeOrder edgeOrder flowOrder : List String) :
    computeDiff g g nodeOrder edgeOrder flowOrder = "No changes since last seen." := by
  simp [computeDiff, nodesAddedSection_self, nodesRemovedSection_self,
    nodesModifiedSection_self, edgesAddedSection_self, edgesRemovedSection_self,
    edgesModifiedSection_self, contractSection_self, flowsAddedSection_self,
    flowsRemovedSection_self, flowsModifiedSection_self]

/-! ## Claim C2: diff output under the map iteration order -/

/-- Claim C2 (refuted): with both nodes of the example renamed, the two
possible iteration orders of the current-side node map — both
permutations of its key set — produce different output text, so two
runs of `compute_diff` on the same snapshot pair need not agree. -/
theorem diff_output_depends_on_map_order :
    List.Perm ["node-1", "node-2"] ["node-2", "node-1"] ∧
    computeDiff diffBaseModel diffCurrModel ["node-1", "node-2"] [] [] ≠
      computeDiff diffBaseModel diffCurrModel ["node-2", "node-1"] [] [] :=
  ⟨by decide, by decide⟩

/-! ## Claim C1: the dependency check filters targets by kind only -/

/-- The code's Boolean dependency check coincides with the kind-filtered
propositional reading `DepsSatisfiedByKind`. -/
theorem depsSatisfied_iff (m : C4ModelData) (n : C4Node) :
    depsSatisfied m n = true ↔ DepsSatisfiedByKind m n := by
  unfold depsSatisfied DepsSatisfiedByKind
  rw [List.all_eq_true]
  constructor
  · intro h e he hsrc t hft hkind
    have hp := h e he
    unfold depEdgeOk at hp
    simp only [hsrc, beq_self_eq_true, if_true] at hp
    rw [hft] at hp
    have hbk : (t.data.kind == C4Kind.container || t.data.kind == C4Kind.component) = true := by
      rcases hkind with hk | hk <;> simp [hk]
    simpa [hbk] using hp
  · intro h e he
    unfold depEdgeOk
    by_cases hs : e.source = n.id
    · simp only [hs, beq_self_eq_true, if_true]
      cases hft : findNode m e.target with
      | none => rfl
      | some t0 =>
        dsimp only
        by_cases hk : (t0.data.kind == C4Kind.container || t0.data.kind == C4Kind.component) = true
        · rw [if_pos hk]
          apply h e he hs t0 hft
          rcases Bool.or_eq_true_iff.mp hk with hc | hc
          · exact Or.inl (beq_iff_eq.mp hc)
          · exact Or.inr (beq_iff_eq.mp hc)
        · rw [if_neg hk]
    · have hb : (e.source == n.id) = false := beq_eq_false_iff_ne.mpr hs
      simp [hb]

/-- Claim C1 as stated is false: in `depModel`, node A is task-eligible
and unsatisfied, every edge out of A whose target is task-eligible has a
satisfied target (vacuously — the only target, B, is Deprecated and so
not task-eligible), yet A is not Ready: the code consults the
ineligible deprecated target and blocks A on it. -/
theorem deps_check_eligibility_claim_false :
    ¬ (∀ (m : C4ModelData) (n : C4Node),
        n ∈ taskNodes m none → isSatisfied m n = false →
        (n ∈ readyNodes m none ↔ DepsSatisfiedClaim m n)) := by
  intro h
  have hclaim : DepsSatisfiedClaim depModel depNodeA := by
    intro e he hsrc t hft helig
    have he2 : e = { id := "edge-node-a-node-b", source := "node-a", target := "node-b" } := by
      simpa [depModel] using he
    subst he2
    have hft2 : findNode depModel "node-b" = some t := hft
    have hfb : findNode depModel "node-b" = some depNodeB := by decide
    have ht : depNodeB = t := by
      have := hfb.symm.trans hft2
      exact Option.some.inj this
    rw [← ht] at helig
    exact absurd helig (by decide)
  have hready := (h depModel depNodeA (by decide) (by decide)).mpr hclaim
  exact absurd hready (by decide)

/-- Claim C1 amended: a task-eligible unsatisfied node is Ready exactly
when every edge out of it whose target resolves to a node of Container
or Component **kind** has a Satisfied target, and Blocked otherwise;
missing targets and targets of other kinds are ignored, but eligibility
of the target (status, external parent, superseded) is not consulted. -/
theorem ready_blocked_iff_kind_deps (m : C4ModelData) (n : C4Node)
    (h1 : n ∈ taskNodes m none) (h2 : isSatisfied m n = false) :
    (n ∈ readyNodes m none ↔ DepsSatisfiedByKind m n) ∧
    (n ∈ blockedNodes m none ↔ ¬ DepsSatisfiedByKind m n) := by
  have hw : n ∈ workNodes m none := List.mem_filter.mpr ⟨h1, by simp [h2]⟩
  constructor
  · constructor
    · intro hr
      exact (depsSatisfied_iff m n).mp (List.mem_filter.mp hr).2
    · intro hd
      exact List.mem_filter.mpr ⟨hw, (depsSatisfied_iff m n).mpr hd⟩
  · constructor
    · intro hb hd
      have hbd := (List.mem_filter.mp hb).2
      rw [(depsSatisfied_iff m n).mpr hd] at hbd
      exact absurd hbd (by simp)
    · intro hnd
      refine List.mem_filter.mpr ⟨hw, ?_⟩
      cases hdep : depsSatisfied m n with
      | true => exact absurd ((depsSatisfied_iff m n).mp hdep) hnd
      | false => rfl

/-- Witness for the amended claim C1 at the concrete graph `depModel`. -/
theorem ready_blocked_iff_kind_deps_witness :
    depNodeA ∈ taskNodes depModel none ∧ isSatisfied depModel depNodeA = false ∧
    ((depNodeA ∈ readyNodes depModel none ↔ DepsSatisfiedByKind depModel depNodeA) ∧
     (depNodeA ∈ blockedNodes depModel none ↔ ¬ DepsSatisfiedByKind depModel depNodeA)) :=
  ⟨by decide, by decide, ready_blocked_iff_kind_deps depModel depNodeA (by decide) (by decide)⟩

/-! ## Claim C7: cycle report when nothing is ready -/

/-- Claim C7: whenever the Ready set is empty and the Blocked set is
not, `get_task` returns the dependency-cycle report carrying the name
and id of every blocked node — never a completion or ready result. -/
theorem cycle_report_when_no_ready (m : C4ModelData) (scope : Option String)
    (hr : readyNodes m scope = []) (hb : blockedNodes m scope ≠ []) :
    getTask m scope =
      TaskOutcome.cycle ((blockedNodes m scope).map fun n => (n.data.name, n.id)) := by
  obtain ⟨n, hn⟩ := List.exists_mem_of_ne_nil _ hb
  have hnw : n ∈ workNodes m scope := (List.mem_filter.mp hn).1
  have hnt : n ∈ taskNodes m scope := (List.mem_filter.mp hnw).1
  have h1 : (taskNodes m scope).isEmpty = false :=
    List.isEmpty_eq_false.mpr (List.ne_nil_of_mem hnt)
  have h2 : (workNodes m scope).isEmpty = false :=
    List.isEmpty_eq_false.mpr (List.ne_nil_of_mem hnw)
  have h3 : (readyNodes m scope).isEmpty = true := by rw [hr]; rfl
  have h4 : (blockedNodes m scope).isEmpty = false := List.isEmpty_eq_false.mpr hb
  simp [getTask, h1, h2, h3, h4]

/-- Witness for claim C7 at the two-container cycle A → B → A: the
report names both A and B. -/
theorem cycle_report_when_no_ready_witness :
    readyNodes cycleModel none = [] ∧ blockedNodes cycleModel none ≠ [] ∧
    getTask cycleModel none = TaskOutcome.cycle [("A", "node-a"), ("B", "node-b")] :=
  ⟨by decide, by decide,
    (cycle_report_when_no_ready cycleModel none (by decide) (by decide)).trans (by decide)⟩

/-! ## Claim C8: implemented work units never return as Ready or Blocked -/

/-- A component-kind node never has status-bearing children in the sense
of `has_status_children`: the kind match admits only Container and
System parents. -/
theorem hasStatusChildren_component (m : C4ModelData) (x : C4Node)
    (h : x.data.kind = C4Kind.component) : hasStatusChildren m x = false := by
  unfold hasStatusChildren
  rw [List.any_eq_false]
  intro c hc
  simp [h]

/-- After marking an id list Implemented, no node bearing one of those
ids is a work node: it is either satisfied or no longer task-eligible. -/
theorem work_setImplemented_id_not_mem (m : C4ModelData) (ids : List String)
    (scope : Option String) (n : C4Node)
    (h : n ∈ workNodes (setImplemented m ids) scope) : n.id ∉ ids := by
  intro hid
  have hw := List.mem_filter.mp h
  have ht := List.mem_filter.mp hw.1
  have hns : isSatisfied (setImplemented m ids) n = false := by
    have := hw.2
    cases hsat : isSatisfied (setImplemented m ids) n with
    | false => rfl
    | true => rw [hsat] at this; exact absurd this (by simp)
  have hmem : n ∈ m.nodes.map fun x =>
      if ids.contains x.id then
        { x with data := { x.data with status := some Status.implemented } }
      else x := ht.1
  obtain ⟨n0, hn0, hfn⟩ := List.mem_map.mp hmem
  have hstat : n.data.status = some Status.implemented := by
    by_cases hc : ids.contains n0.id = true
    · rw [if_pos hc] at hfn
      rw [← hfn]
    · rw [if_neg hc] at hfn
      rw [← hfn] at hid
      exact absurd (List.elem_iff.mpr hid) hc
  have helig := ht.2
  simp only [taskEligible, Bool.and_eq_true] at helig
  obtain ⟨⟨⟨⟨hkind, _⟩, _⟩, hnsup⟩, _⟩ := helig
  unfold isSatisfied at hns
  by_cases hext : (n.data.external == some true) = true
  · rw [if_pos hext] at hns
    exact absurd hns (by simp)
  · rw [if_neg hext] at hns
    by_cases hsc : hasStatusChildren (setImplemented m ids) n = true
    · rcases Bool.or_eq_true_iff.mp hkind with hk | hk
      · -- Container: superseded containers are not task-eligible
        rw [beq_iff_eq.mp hk] at hnsup
        simp [hsc] at hnsup
      · -- Component: has no status-bearing children by kind
        exact absurd hsc
          (by rw [hasStatusChildren_component _ _ (beq_iff_eq.mp hk)]; simp)
    · rw [if_neg hsc, hstat] at hns
      exact absurd hns (by simp)

/-- Claim C8: for any work unit returned by `get_task` (scaffold or
build), marking every node of the unit Implemented yields a graph in
which no node with one of the unit's ids is classified Ready or Blocked
by a subsequent call. -/
theorem implemented_unit_not_ready_or_blocked (m : C4ModelData) (scope : Option String)
    (gname : String) (unit : List C4Node) (n u : C4Node)
    (hout : getTask m scope = TaskOutcome.scaffold gname unit ∨
            getTask m scope = TaskOutcome.build unit)
    (hu : u ∈ unit)
    (hn : n ∈ readyNodes (setImplemented m (unit.map fun x => x.id)) scope ∨
          n ∈ blockedNodes (setImplemented m (unit.map fun x => x.id)) scope) :
    n.id ≠ u.id := by
  have hw : n ∈ workNodes (setImplemented m (unit.map fun x => x.id)) scope := by
    rcases hn with h | h
    · exact (List.mem_filter.mp h).1
    · exact (List.mem_filter.mp h).1
  intro he
  exact work_setImplemented_id_not_mem m (unit.map fun x => x.id) scope n hw
    (he ▸ List.mem_map.mpr ⟨u, hu, rfl⟩)

/-- Witness for claim C8: `buildModel` yields the unit [W1]; after W1 is
implemented, W2 is Ready, and the theorem gives that W2 is not a node of
the finished unit. -/
theorem implemented_unit_not_ready_or_blocked_witness :
    getTask buildModel none = TaskOutcome.build [buildCont1] ∧
    buildCont1 ∈ [buildCont1] ∧
    buildCont2 ∈ readyNodes (setImplemented buildModel ([buildCont1].map fun x => x.id)) none ∧
    buildCont2.id ≠ buildCont1.id :=
  ⟨by decide, by decide, by decide,
    implemented_unit_not_ready_or_blocked buildModel none "" [buildCont1] buildCont2 buildCont1
      (Or.inr (by decide)) (by decide) (Or.inl (by decide))⟩

/-! ## Claim C10: dangling edge targets are skipped -/

/-- Claim C10: adding an edge whose target id matches no node changes
nothing in the dependency check or in the Ready/Blocked classification:
the `deps_satisfied` loop silently skips targets it cannot resolve. -/
theorem dangling_edge_ignored (m : C4ModelData) (e : C4Edge) (scope : Option String)
    (n : C4Node) (h : ∀ x ∈ m.nodes, x.id ≠ e.target) :
    depsSatisfied (consEdge m e) n = depsSatisfied m n ∧
    readyNodes (consEdge m e) scope = readyNodes m scope ∧
    blockedNodes (consEdge m e) scope = blockedNodes m scope := by
  have hfind : findNode m e.target = none := by
    unfold findNode
    rw [List.find?_eq_none]
    intro x hx
    simp [h x hx]
  have hds : ∀ k : C4Node, depsSatisfied (consEdge m e) k = depsSatisfied m k := by
    intro k
    show (e :: m.edges).all (depEdgeOk (consEdge m e) k) = m.edges.all (depEdgeOk m k)
    rw [List.all_cons]
    have hhead : depEdgeOk (consEdge m e) k e = true := by
      unfold depEdgeOk
      have hf2 : findNode (consEdge m e) e.target = none := hfind
      rw [hf2]
      by_cases hs : (e.source == k.id) = true
      · rw [if_pos hs]
      · rw [if_neg hs]
    rw [hhead, Bool.true_and]
    have hfun : depEdgeOk (consEdge m e) k = depEdgeOk m k := funext fun x => rfl
    rw [hfun]
  have hsat : ∀ k : C4Node, isSatisfied (consEdge m e) k = isSatisfied m k := fun k => rfl
  have hdesc : ∀ (a b : String), isDescendantOf (consEdge m e) a b = isDescendantOf m a b := by
    intro a b
    show isDescendantOfFuel (consEdge m e) m.nodes.length a b =
      isDescendantOfFuel m m.nodes.length a b
    generalize m.nodes.length = fuel
    induction fuel generalizing a with
    | zero => rfl
    | succ k ih =>
      show (match parentIdOf m a with
        | some pid => if pid == b then true else isDescendantOfFuel (consEdge m e) k pid b
        | none => false) =
        (match parentIdOf m a with
        | some pid => if pid == b then true else isDescendantOfFuel m k pid b
        | none => false)
      cases parentIdOf m a with
      | none => rfl
      | some pid =>
        dsimp only
        rw [ih pid]
  have helig : ∀ k : C4Node, taskEligible (consEdge m e) scope k = taskEligible m scope k := by
    intro k
    cases scope with
    | none => rfl
    | some s =>
      unfold taskEligible
      dsimp only
      rw [hdesc k.id s]
      exact rfl
  have htask : taskNodes (consEdge m e) scope = taskNodes m scope := by
    show (consEdge m e).nodes.filter (taskEligible (consEdge m e) scope) =
      m.nodes.filter (taskEligible m scope)
    exact List.filter_congr fun x _ => helig x
  have hwork : workNodes (consEdge m e) scope = workNodes m scope := by
    show (taskNodes (consEdge m e) scope).filter (fun k => !isSatisfied (consEdge m e) k) =
      (taskNodes m scope).filter fun k => !isSatisfied m k
    rw [htask]
    exact List.filter_congr fun x _ => by rw [hsat x]
  refine ⟨hds n, ?_, ?_⟩
  · show (workNodes (consEdge m e) scope).filter (fun k => depsSatisfied (consEdge m e) k) =
      (workNodes m scope).filter fun k => depsSatisfied m k
    rw [hwork]
    exact List.filter_congr fun x _ => hds x
  · show (workNodes (consEdge m e) scope).filter (fun k => !depsSatisfied (consEdge m e) k) =
      (workNodes m scope).filter fun k => !depsSatisfied m k
    rw [hwork]
    exact List.filter_congr fun x _ => by rw [hds x]

/-- Witness for claim C10 at a concrete one-node graph with a dangling
edge out of its only container. -/
theorem dangling_edge_ignored_witness :
    (∀ x ∈ dangModel.nodes, x.id ≠ dangEdge.target) ∧
    (depsSatisfied (consEdge dangModel dangEdge) dangNode = depsSatisfied dangModel dangNode ∧
     readyNodes (consEdge dangModel dangEdge) none = readyNodes dangModel none ∧
     blockedNodes (consEdge dangModel dangEdge) none = blockedNodes dangModel none) :=
  ⟨by decide, dangling_edge_ignored dangModel dangEdge none dangNode (by decide)⟩

/-! ## Claim C3: scaffold units carry the ready group members -/

/-- Claim C3 as stated is false: in `scafModel`, the deployment group
members C1 and C2 are all Proposed and C1 is Ready, yet the scaffold
unit omits the blocked member C2 — the code emits only the Ready member
containers, not all member containers. -/
theorem scaffold_includes_all_members_false :
    ¬ (∀ (m : C4ModelData) (g : Group), g ∈ m.groups → g.kind = GroupKind.deployment →
        (∀ mid ∈ g.memberIds, ∀ t, findNode m mid = some t →
          t.data.kind = C4Kind.container → t.data.status = some Status.proposed) →
        (∃ n ∈ readyNodes m none, n.id ∈ g.memberIds) →
        ∃ unit, getTask m none = TaskOutcome.scaffold g.name unit ∧
          ∀ mid ∈ g.memberIds, ∀ t, findNode m mid = some t →
            t.data.kind = C4Kind.container → t ∈ unit) := by
  intro h
  have hprop : ∀ mid ∈ scafGroup.memberIds, ∀ t, findNode scafModel mid = some t →
      t.data.kind = C4Kind.container → t.data.status = some Status.proposed := by
    intro mid hmid t hft hkind
    have hmid2 : mid = "node-c1" ∨ mid = "node-c2" := by simpa [scafGroup] using hmid
    rcases hmid2 with rfl | rfl
    · have h1 : findNode scafModel "node-c1" = some scafNodeC1 := by decide
      obtain rfl := Option.some.inj (h1.symm.trans hft)
      decide
    · have h2 : findNode scafModel "node-c2" = some scafNodeC2 := by decide
      obtain rfl := Option.some.inj (h2.symm.trans hft)
      decide
  obtain ⟨unit, hout, hall⟩ :=
    h scafModel scafGroup (by decide) rfl hprop ⟨scafNodeC1, by decide, by decide⟩
  have hcomp : getTask scafModel none = TaskOutcome.scaffold "grp" [scafNodeC1] := by decide
  have hsame : TaskOutcome.scaffold "grp" [scafNodeC1] =
      TaskOutcome.scaffold scafGroup.name unit := hcomp.symm.trans hout
  injection hsame with hname hunit
  have hc2 := hall "node-c2" (by decide) scafNodeC2 (by decide) (by decide)
  rw [← hunit] at hc2
  exact absurd hc2 (by decide)

/-- Claim C3 amended: when the scaffold test fires for a deployment
group (all members Proposed, at least one Ready member container — the
first such group in storage order), `get_task` returns one scaffold unit
labeled with the group's name containing exactly the **Ready** member
containers of the group. -/
theorem scaffold_unit_is_ready_members (m : C4ModelData) (scope : Option String)
    (g : Group) (members : List C4Node)
    (hsc : scaffoldGroup m (readyNodes m scope) = some (g, members)) :
    getTask m scope = TaskOutcome.scaffold g.name members ∧
    members = (readyNodes m scope).filter
      (fun n => n.data.kind == C4Kind.container && g.memberIds.contains n.id) ∧
    members ≠ [] := by
  obtain ⟨g0, hg0, hcand⟩ := List.exists_of_findSome?_eq_some hsc
  simp only [scaffoldCandidate] at hcand
  split at hcand
  case isTrue hdep =>
    split at hcand
    case isTrue hcond =>
      rw [Option.some.injEq, Prod.mk.injEq] at hcand
      obtain ⟨rfl, hmem⟩ := hcand
      have hne : members ≠ [] := by
        have h1 := (Bool.and_eq_true _ _).mp hcond
        have h2 : ((readyNodes m scope).filter fun n =>
            n.data.kind == C4Kind.container && g0.memberIds.contains n.id).isEmpty = false := by
          cases hh : ((readyNodes m scope).filter fun n =>
              n.data.kind == C4Kind.container && g0.memberIds.contains n.id).isEmpty
          · rfl
          · rw [hh] at h1; simp at h1
        rw [← hmem]
        exact List.isEmpty_eq_false.mp h2
      refine ⟨?_, hmem.symm, hne⟩
      obtain ⟨x, hx⟩ := List.exists_mem_of_ne_nil members hne
      have hxr : x ∈ readyNodes m scope := by
        rw [← hmem] at hx
        exact (List.mem_filter.mp hx).1
      have hxw : x ∈ workNodes m scope := (List.mem_filter.mp hxr).1
      have hxt : x ∈ taskNodes m scope := (List.mem_filter.mp hxw).1
      have h1 : (taskNodes m scope).isEmpty = false :=
        List.isEmpty_eq_false.mpr (List.ne_nil_of_mem hxt)
      have h2 : (workNodes m scope).isEmpty = false :=
        List.isEmpty_eq_false.mpr (List.ne_nil_of_mem hxw)
      have h3 : (readyNodes m scope).isEmpty = false :=
        List.isEmpty_eq_false.mpr (List.ne_nil_of_mem hxr)
      simp [getTask, h1, h2, h3, hsc]
    case isFalse => exact absurd hcand (by simp)
  case isFalse => exact absurd hcand (by simp)

/-- Witness for the amended claim C3 at the concrete graph `scafModel`:
the scaffold test fires for the group and the unit is exactly the ready
member container C1. -/
theorem scaffold_unit_is_ready_members_witness :
    scaffoldGroup scafModel (readyNodes scafModel none) = some (scafGroup, [scafNodeC1]) ∧
    (getTask scafModel none = TaskOutcome.scaffold scafGroup.name [scafNodeC1] ∧
     [scafNodeC1] = (readyNodes scafModel none).filter
       (fun n => n.data.kind == C4Kind.container && scafGroup.memberIds.contains n.id) ∧
     [scafNodeC1] ≠ ([] : List C4Node)) :=
  ⟨by decide, scaffold_unit_is_ready_members scafModel none scafGroup [scafNodeC1] (by decide)⟩

/-! ## Claim C5: the subtree closure is the transitive parent closure

Structure of the argument: each node visit only grows the collected set
(`subtreeInsert_suffix`), keeps it duplicate-free and inside the id
universe, and adds only derivable ids (`subtreeFold_sound`); a sweep
collects every node whose parent is already present
(`subtreeFold_complete`); a productive sweep strictly grows a set
bounded by the universe size, so fuel `nodes.length + 1` reaches a
fixed point (`subtreeIterate_fixpoint`), and a fixed point closed under
the step rule contains the whole transitive closure. -/

/-- A node visit only extends the collected list at the front. -/
theorem subtreeInsert_suffix (acc : List String) (n : C4Node) :
    acc <:+ subtreeInsert acc n := by
  unfold subtreeInsert
  cases n.parentId with
  | none => exact List.suffix_rfl
  | some pid =>
    dsimp only
    by_cases h : pid ∈ acc ∧ n.id ∉ acc
    · rw [if_pos h]
      exact List.suffix_cons n.id acc
    · rw [if_neg h]

/-- A sweep only extends the collected list at the front. -/
theorem subtreeFold_suffix (l : List C4Node) : ∀ acc, acc <:+ l.foldl subtreeInsert acc := by
  induction l with
  | nil => intro acc; exact List.suffix_rfl
  | cons n t ih =>
    intro acc
    exact (subtreeInsert_suffix acc n).trans (ih (subtreeInsert acc n))

/-- A node visit preserves freedom from duplicates. -/
theorem subtreeInsert_nodup {acc : List String} (h : acc.Nodup) (n : C4Node) :
    (subtreeInsert acc n).Nodup := by
  unfold subtreeInsert
  cases n.parentId with
  | none => exact h
  | some pid =>
    dsimp only
    by_cases hc : pid ∈ acc ∧ n.id ∉ acc
    · rw [if_pos hc]
      exact List.nodup_cons.mpr ⟨hc.2, h⟩
    · rw [if_neg hc]
      exact h

/-- A sweep preserves freedom from duplicates. -/
theorem subtreeFold_nodup (l : List C4Node) :
    ∀ acc : List String, acc.Nodup → (l.foldl subtreeInsert acc).Nodup := by
  induction l with
  | nil => intro acc h; exact h
  | cons n t ih => intro acc h; exact ih _ (subtreeInsert_nodup h n)

/-- A sweep stays inside any universe containing the start set and the
visited node ids. -/
theorem subtreeFold_subset (l : List C4Node) :
    ∀ (acc u : List String), acc ⊆ u → (∀ n ∈ l, n.id ∈ u) →
      l.foldl subtreeInsert acc ⊆ u := by
  induction l with
  | nil => intro acc u hacc _; exact hacc
  | cons n t ih =>
    intro acc u hacc hl
    apply ih _ u ?_ fun x hx => hl x (List.mem_cons_of_mem n hx)
    unfold subtreeInsert
    cases n.parentId with
    | none => exact hacc
    | some pid =>
      dsimp only
      by_cases hc : pid ∈ acc ∧ n.id ∉ acc
      · rw [if_pos hc]
        exact List.cons_subset.mpr ⟨hl n (List.mem_cons_self n t), hacc⟩
      · rw [if_neg hc]
        exact hacc

/-- A sweep over nodes of the graph adds only ids of the transitive
parent closure. -/
theorem subtreeFold_sound (nodes : List C4Node) (rootId : String) (l : List C4Node) :
    ∀ acc, (∀ n ∈ l, n ∈ nodes) → (∀ y ∈ acc, InSubtree nodes rootId y) →
      ∀ y ∈ l.foldl subtreeInsert acc, InSubtree nodes rootId y := by
  induction l with
  | nil => intro acc _ hacc; exact hacc
  | cons n t ih =>
    intro acc hl hacc
    apply ih _ (fun x hx => hl x (List.mem_cons_of_mem n hx))
    intro y hy
    unfold subtreeInsert at hy
    cases hp : n.parentId with
    | none => exact hacc y (by rw [hp] at hy; exact hy)
    | some pid =>
      rw [hp] at hy
      dsimp only at hy
      by_cases hc : pid ∈ acc ∧ n.id ∉ acc
      · rw [if_pos hc] at hy
        rcases List.mem_cons.mp hy with rfl | hy2
        · exact InSubtree.step n pid (hl n (List.mem_cons_self n t)) hp (hacc pid hc.1)
        · exact hacc y hy2
      · rw [if_neg hc] at hy
        exact hacc y hy

/-- A sweep collects every listed node whose parent id is already in
the start set. -/
theorem subtreeFold_complete (l : List C4Node) :
    ∀ (acc : List String) (n : C4Node) (pid : String),
      n ∈ l → n.parentId = some pid → pid ∈ acc →
      n.id ∈ l.foldl subtreeInsert acc := by
  induction l with
  | nil => intro _ _ _ h; exact absurd h (List.not_mem_nil _)
  | cons a t ih =>
    intro acc n pid hn hp hpid
    rcases List.mem_cons.mp hn with rfl | hn2
    · apply (subtreeFold_suffix t (subtreeInsert acc n)).subset
      unfold subtreeInsert
      rw [hp]
      dsimp only
      by_cases hmem : n.id ∈ acc
      · rw [if_neg fun hc => hc.2 hmem]
        exact hmem
      · rw [if_pos ⟨hpid, hmem⟩]
        exact List.mem_cons_self n.id acc
    · exact ih _ n pid hn2 hp ((subtreeInsert_suffix acc a).subset hpid)

/-- The fixed-point loop only extends the collected list at the front. -/
theorem subtreeIterate_suffix (nodes : List C4Node) :
    ∀ (fuel : Nat) (s : List String), s <:+ subtreeIterate nodes fuel s := by
  intro fuel
  induction fuel with
  | zero => intro s; exact List.suffix_rfl
  | succ k ih =>
    intro s
    by_cases h : subtreeStep nodes s = s
    · simp only [subtreeIterate]
      rw [if_pos h]
    · simp only [subtreeIterate]
      rw [if_neg h]
      exact (subtreeFold_suffix nodes s).trans (ih (subtreeStep nodes s))

/-- The fixed-point loop collects only ids of the transitive closure. -/
theorem subtreeIterate_sound (nodes : List C4Node) (rootId : String) :
    ∀ (fuel : Nat) (s : List String), (∀ y ∈ s, InSubtree nodes rootId y) →
      ∀ y ∈ subtreeIterate nodes fuel s, InSubtree nodes rootId y := by
  intro fuel
  induction fuel with
  | zero => intro s hs; exact hs
  | succ k ih =>
    intro s hs
    by_cases h : subtreeStep nodes s = s
    · simp only [subtreeIterate]
      rw [if_pos h]
      exact hs
    · simp only [subtreeIterate]
      rw [if_neg h]
      exact ih _ (subtreeFold_sound nodes rootId nodes s (fun _ hn => hn) hs)

/-- With fuel exceeding the id universe, the loop result is a fixed
point of the sweep: a productive sweep strictly grows a duplicate-free
list bounded by the universe length. -/
theorem subtreeIterate_fixpoint (nodes : List C4Node) (rootId : String) :
    ∀ (fuel : Nat) (s : List String), s.Nodup →
      s ⊆ rootId :: nodes.map (fun n => n.id) →
      nodes.length + 2 ≤ fuel + s.length →
      subtreeStep nodes (subtreeIterate nodes fuel s) = subtreeIterate nodes fuel s := by
  intro fuel
  induction fuel with
  | zero =>
    intro s hnd hsub hlen
    exfalso
    have h1 : s.toFinset.card = s.length := List.toFinset_card_of_nodup hnd
    have h2 : s.toFinset ⊆ (rootId :: nodes.map fun n => n.id).toFinset :=
      fun a ha => List.mem_toFinset.mpr (hsub (List.mem_toFinset.mp ha))
    have h3 : s.length ≤ (rootId :: nodes.map fun n => n.id).length := by
      calc s.length = s.toFinset.card := h1.symm
        _ ≤ (rootId :: nodes.map fun n => n.id).toFinset.card := Finset.card_le_card h2
        _ ≤ (rootId :: nodes.map fun n => n.id).length := List.toFinset_card_le _
    rw [List.length_cons, List.length_map] at h3
    omega
  | succ k ih =>
    intro s hnd hsub hlen
    by_cases h : subtreeStep nodes s = s
    · have hres : subtreeIterate nodes (k + 1) s = s := by
        simp only [subtreeIterate]
        rw [if_pos h]
      rw [hres, h]
    · have hres : subtreeIterate nodes (k + 1) s =
          subtreeIterate nodes k (subtreeStep nodes s) := by
        simp only [subtreeIterate]
        rw [if_neg h]
      rw [hres]
      have hsuf : s <:+ subtreeStep nodes s := subtreeFold_suffix nodes s
      have hlt : s.length < (subtreeStep nodes s).length := by
        rcases Nat.lt_or_ge s.length (subtreeStep nodes s).length with hlt | hge
        · exact hlt
        · exact absurd (hsuf.eq_of_length (Nat.le_antisymm hsuf.length_le hge)).symm h
      apply ih
      · exact subtreeFold_nodup nodes s hnd
      · exact subtreeFold_subset nodes s _ hsub
          fun n hn => List.mem_cons_of_mem rootId (List.mem_map_of_mem _ hn)
      · omega

/-- The collected id set is a fixed point of the sweep. -/
theorem subtreeIdsList_fixpoint (nodes : List C4Node) (rootId : String) :
    subtreeStep nodes (subtreeIdsList nodes rootId) = subtreeIdsList nodes rootId := by
  apply subtreeIterate_fixpoint nodes rootId (nodes.length + 1) [rootId] (by simp)
  · intro a ha
    rw [List.mem_singleton.mp ha]
    exact List.mem_cons_self _ _
  · simp

/-- Soundness: every collected id is in the transitive parent closure. -/
theorem subtreeIdsList_sound (nodes : List C4Node) (rootId : String) :
    ∀ x ∈ subtreeIdsList nodes rootId, InSubtree nodes rootId x := by
  apply subtreeIterate_sound nodes rootId (nodes.length + 1) [rootId]
  intro y hy
  rw [List.mem_singleton.mp hy]
  exact InSubtree.root

/-- Completeness: every id of the transitive parent closure is
collected. -/
theorem subtreeIdsList_complete (nodes : List C4Node) (rootId : String) (x : String)
    (hx : InSubtree nodes rootId x) : x ∈ subtreeIdsList nodes rootId := by
  induction hx with
  | root =>
    exact (subtreeIterate_suffix nodes (nodes.length + 1) [rootId]).subset
      (List.mem_singleton_self rootId)
  | step n pid hn hp _ ih =>
    rw [← subtreeIdsList_fixpoint nodes rootId]
    exact subtreeFold_complete nodes (subtreeIdsList nodes rootId) n pid hn hp ih

/-- The transitive parent closure is monotone in the node list. -/
theorem InSubtree_mono {a b : List C4Node} (h : ∀ n, n ∈ a → n ∈ b) {rootId x : String}
    (hx : InSubtree a rootId x) : InSubtree b rootId x := by
  induction hx with
  | root => exact InSubtree.root
  | step n pid hn hp _ ih => exact InSubtree.step n pid (h n hn) hp ih

/-- Claim C5: for a target id present in the graph, the descendant id
set of `get_node` is exactly the transitive closure of the parent
relation rooted at the target, and any permutation of the node storage
order collects the same set. -/
theorem subtree_closure (m mp : C4ModelData) (rootId x : String)
    (hroot : ∃ n ∈ m.nodes, n.id = rootId) (hperm : mp.nodes.Perm m.nodes) :
    (x ∈ subtreeIds m rootId ↔ InSubtree m.nodes rootId x) ∧
    (x ∈ subtreeIds mp rootId ↔ x ∈ subtreeIds m rootId) := by
  have main : ∀ nodes : List C4Node,
      x ∈ subtreeIdsList nodes rootId ↔ InSubtree nodes rootId x := fun nodes =>
    ⟨subtreeIdsList_sound nodes rootId x, subtreeIdsList_complete nodes rootId x⟩
  refine ⟨main m.nodes, ?_⟩
  refine (main mp.nodes).trans (Iff.trans ?_ (main m.nodes).symm)
  constructor
  · exact InSubtree_mono fun n hn => hperm.mem_iff.mp hn
  · exact InSubtree_mono fun n hn => hperm.mem_iff.mpr hn

/-- Witness for claim C5 at the scrambled three-level chain and a
permutation of it. -/
theorem subtree_closure_witness :
    (∃ n ∈ subModel.nodes, n.id = "s") ∧ List.Perm subModelPerm.nodes subModel.nodes ∧
    (("p" ∈ subtreeIds subModel "s" ↔ InSubtree subModel.nodes "s" "p") ∧
     ("p" ∈ subtreeIds subModelPerm "s" ↔ "p" ∈ subtreeIds subModel "s")) :=
  ⟨⟨subNodeS, by decide, rfl⟩, by decide,
    subtree_closure subModel subModelPerm "s" "p" ⟨subNodeS, by decide, rfl⟩ (by decide)⟩

end Scryer
